import Mathlib

/-!
Verification of the `new` command of spin-hub-cli (`src/commands/new.rs`).

The command is modelled as pure functions over an explicit environment
(`Env`) that records the responses of the external collaborators
(remote index fetch, interactive prompt, template manager).  Console
output and invocations of the template manager are recorded as a trace
of `Event`s; the result of a call is a `Res`: `ok`, a propagated error
(`err`, with the anyhow/dialoguer message), or a `crashed` outcome, the
model of a Rust panic (an `unwrap` of an error or of `None`).
-/

set_option linter.unusedVariables false
set_option autoImplicit false

namespace SpinHub

/-- Model of Rust `to_lowercase` on strings (characterwise lowering; the
strings this command handles are index titles, tags and search terms). -/
def strToLower (s : String) : String :=
  ⟨s.data.map Char.toLower⟩

/-- Lexicographic comparison of character lists, the order `Ord`/`sort`
uses on Rust strings. -/
def charListLe : List Char → List Char → Bool
  | [], _ => true
  | _ :: _, [] => false
  | a :: as, b :: bs =>
    if a < b then true else if b < a then false else charListLe as bs

/-- Splitting a character list at every space, keeping empty pieces. -/
def splitOnSpace : List Char → List (List Char)
  | [] => [[]]
  | c :: rest =>
    match splitOnSpace rest with
    | [] => [[]]
    | w :: ws => if c = ' ' then [] :: w :: ws else (c :: w) :: ws

/-- `needle` is an initial segment of `hay` (both as character lists). -/
def holdsAhead : List Char → List Char → Bool
  | _, [] => true
  | [], _ :: _ => false
  | a :: as, b :: bs => a == b && holdsAhead as bs

/-- `n` occurs contiguously somewhere in the character list. -/
def occursInAux (n : List Char) : List Char → Bool
  | [] => holdsAhead [] n
  | c :: rest => holdsAhead (c :: rest) n || occursInAux n rest

/-- Modelled from the spec: the `hub_api::Category` type.  The spec only
names the `category` field of an entry; this module references only the
`Template` variant, so every other category is collapsed into one
variant. -/
inductive Category where
  | Template
  | NotTemplate
deriving DecidableEq

/-- Modelled from the spec: the opaque index-entry record
"(title, author, summary, tags, url, id, category)" consumed verbatim
from the external index. -/
structure IndexEntry where
  title : String
  author : String
  summary : String
  tags : List String
  url : String
  id : String
  category : Category
deriving DecidableEq

/-- Modelled from the spec: the `hub_api::IndexEntry::tags()` accessor.
The spec states matching is case-insensitive while `new.rs` lowercases
only the search term, so the accessor returns the tags lowercased. -/
def IndexEntry.tagsLower (e : IndexEntry) : List String :=
  e.tags.map strToLower

/-- Modelled from the spec: the `hub_api::IndexEntry::title_words()`
accessor — the space-separated words of the title, lowercased
(case-insensitive matching, per the spec). -/
def IndexEntry.title_words (e : IndexEntry) : List String :=
  (splitOnSpace (strToLower e.title).data).map fun w => (⟨w⟩ : String)

/-- `needle` occurs as a contiguous substring of `hay`.  Used only to
state the reading of the spec, "substring matching", against the title. -/
def occursIn (needle hay : String) : Bool :=
  occursInAux needle.data hay.data

/-- The `NewCommand` clap struct of `new.rs` (fields `terms`, `list`,
`name`). -/
structure NewCommand where
  terms : List String
  list : Bool
  name : Option String
deriving DecidableEq

/-- Observable actions of the command: a `println!` line, showing the
interactive selection prompt with its items, invoking the template
installer of the template manager on a git repo, and running an installed template. -/
inductive Event where
  | printLine (s : String)
  | promptShown (items : List String)
  | installFrom (repo : String)
  | templateRun (id : String) (appName : String)
deriving DecidableEq

/-- The `unwrap` sites of `new.rs`: the index fetch (lines 48 and 87),
`manager.get(&id).unwrap().unwrap()` (line 75), and the unwraps of
`self.name` inside `run_template` (lines 78-79). -/
inductive CrashReason where
  | indexUnwrap
  | lookupUnwrap
  | nameUnwrap
  | promptIndexOutOfRange
deriving DecidableEq

/-- Result of a call: normal return, a propagated error result, or a
panic. -/
inductive Res (α : Type) where
  | ok (a : α)
  | err (msg : String)
  | crashed (r : CrashReason)
deriving DecidableEq

/-- Responses of the external collaborators for one invocation:
`hub_api::index()`, the `dialoguer` prompt (`Ok none` is Esc/cancel),
`TemplateManager::try_default()`, `TemplateSource::try_from_git`,
`manager.install`, `manager.get(&id)` and `template.run(..).interactive()`.
`Except.error m` is a failure with message `m`. -/
structure Env where
  index : Except String (List IndexEntry)
  promptChoice : Except String (Option Nat)
  managerInit : Except String Unit
  sourceFromGit : Except String Unit
  install : Except String Unit
  lookup : Except String (Option Unit)
  templateRun : Except String Unit

/-- `NewCommand::is_terms_match` (new.rs:115-121): every search term,
lowercased, is one of the tags of the entry or one of its title words. -/
def NewCommand.is_terms_match (cmd : NewCommand) (e : IndexEntry) : Bool :=
  let tags := e.tagsLower
  let title := e.title_words
  cmd.terms.all fun t => tags.contains (strToLower t) || title.contains (strToLower t)

/-- `NewCommand::is_category_match` (new.rs:123-125). -/
def NewCommand.is_category_match (cmd : NewCommand) (e : IndexEntry) : Bool :=
  e.category == Category.Template

/-- `NewCommand::is_match` (new.rs:110-113). -/
def NewCommand.is_match (cmd : NewCommand) (e : IndexEntry) : Bool :=
  cmd.is_terms_match e && cmd.is_category_match e

/-- The order `sorted_by_key(|e| e.title())` sorts by. -/
def titleLe (a b : IndexEntry) : Prop :=
  charListLe a.title.data b.title.data = true

instance : DecidableRel titleLe := fun a b =>
  inferInstanceAs (Decidable (_ = true))

/-- The `sorted_by_key(|e| e.title())` of new.rs (lines 51 and 88):
a stable sort by title. -/
def sortByTitle (l : List IndexEntry) : List IndexEntry :=
  List.insertionSort titleLe l

/-- The Template/Description block printed for one entry by
`list_templates` (new.rs:60). -/
def listingBlock (e : IndexEntry) : Event :=
  .printLine ("Template: " ++ e.title ++ "\nDescription: " ++ e.summary ++ "\n")

/-- `NewCommand::list_templates` (new.rs:47-64).  Note
`hub_api::index().await.unwrap()`: a failed fetch panics. -/
def NewCommand.list_templates (cmd : NewCommand) (env : Env) :
    List Event × Res Unit :=
  match env.index with
  | .error _ => ([], .crashed .indexUnwrap)
  | .ok entries =>
    let matched := sortByTitle (entries.filter fun e => cmd.is_terms_match e)
    if matched.isEmpty then
      ([.printLine "No templates match your search terms"], .ok ())
    else
      (matched.map listingBlock, .ok ())

/-- `NewCommand::resolve_selection` (new.rs:86-108).  Note
`hub_api::index().await.unwrap()`, and that `matches[idx]` panics if the
prompt ever returned an out-of-range index. -/
def NewCommand.resolve_selection (cmd : NewCommand) (env : Env) :
    List Event × Res (Option IndexEntry) :=
  match env.index with
  | .error _ => ([], .crashed .indexUnwrap)
  | .ok entries =>
    let matched := sortByTitle (entries.filter fun e => cmd.is_match e)
    match matched with
    | [] => ([.printLine "No templates match your search terms"], .ok none)
    | [e] => ([], .ok (some e))
    | _ =>
      let shown := Event.promptShown (matched.map (·.title))
      match env.promptChoice with
      | .error m => ([shown], .err m)
      | .ok none => ([shown], .ok none)
      | .ok (some idx) =>
        match matched[idx]? with
        | some e => ([shown], .ok (some e))
        | none => ([shown], .crashed .promptIndexOutOfRange)

/-- `get_repo_and_id` (new.rs:128-133). -/
def get_repo_and_id (e : IndexEntry) : Except String (String × String) :=
  Except.ok (e.url, e.id)

/-- `NewCommand::run_template` (new.rs:66-84).  `try_default`,
`try_from_git` and `install` propagate with `?`;
`manager.get(&id).unwrap().unwrap()` panics on a lookup error or a
missing template; `self.name...unwrap()` panics when `name` is `None`;
the final `template.run(options).interactive().await` is returned. -/
def NewCommand.run_template (cmd : NewCommand) (repo id : String) (env : Env) :
    List Event × Res Unit :=
  match env.managerInit with
  | .error m => ([], .err m)
  | .ok _ =>
    match env.sourceFromGit with
    | .error m => ([], .err m)
    | .ok _ =>
      match env.install with
      | .error m => ([.installFrom repo], .err m)
      | .ok _ =>
        match env.lookup with
        | .error _ => ([.installFrom repo], .crashed .lookupUnwrap)
        | .ok none => ([.installFrom repo], .crashed .lookupUnwrap)
        | .ok (some _) =>
          match cmd.name with
          | none => ([.installFrom repo], .crashed .nameUnwrap)
          | some n =>
            match env.templateRun with
            | .error m => ([.installFrom repo, .templateRun id n], .err m)
            | .ok _ => ([.installFrom repo, .templateRun id n], .ok ())

/-- The description the spec gives of the matcher, for comparison with
`is_terms_match`: every search term, compared case-insensitively,
occurs among the tags of the entry or as a substring of its title. -/
def specTermsMatch (cmd : NewCommand) (e : IndexEntry) : Bool :=
  cmd.terms.all fun t =>
    (e.tags.map strToLower).contains (strToLower t) ||
      occursIn (strToLower t) (strToLower e.title)

/-- `NewCommand::run` (new.rs:25-45). -/
def NewCommand.run (cmd : NewCommand) (env : Env) : List Event × Res Unit :=
  if cmd.list then
    cmd.list_templates env
  else if cmd.name.isNone then
    ([.printLine "Please provide a name for the application you want to create."],
     .ok ())
  else
    match cmd.resolve_selection env with
    | (evs, .err m) => (evs, .err m)
    | (evs, .crashed r) => (evs, .crashed r)
    | (evs, .ok none) => (evs, .ok ())
    | (evs, .ok (some e)) =>
      let evs := evs ++
        [.printLine ("Template " ++ e.title ++ " by " ++ e.author),
         .printLine e.summary]
      match get_repo_and_id e with
      | .error m => (evs, .err m)
      | .ok (repo, id) =>
        let tr := cmd.run_template repo id env
        (evs ++ tr.1, tr.2)

/-- A token that clap treats as a flag rather than a value. -/
def isFlagToken (s : String) : Bool :=
  s.data.head? == some '-'

/-- Modelled from the spec: the clap-derived argument parser for the
`NewCommand` struct (new.rs:6-22) — a repeatable `-t <term>` option, a
`-l`/`--list` flag, and at most one positional `name`. -/
def parseTokens : List String → NewCommand → Except String NewCommand
  | [], acc => .ok acc
  | tok :: rest, acc =>
    if tok = "-t" then
      match rest with
      | [] => .error "a value is required for -t"
      | v :: rest2 => parseTokens rest2 { acc with terms := acc.terms ++ [v] }
    else if tok = "-l" ∨ tok = "--list" then
      parseTokens rest { acc with list := true }
    else if isFlagToken tok then .error ("unexpected argument " ++ tok)
    else
      match acc.name with
      | none => parseTokens rest { acc with name := some tok }
      | some _ => .error ("unexpected argument " ++ tok)

/-- Modelled from the spec: full parse of the command line, including
the required `operation` argument group (new.rs:8-12) demanding at
least one of `list` and `name`. -/
def parse_args (tokens : List String) : Except String NewCommand :=
  match parseTokens tokens { terms := [], list := false, name := none } with
  | .error m => .error m
  | .ok cmd =>
    if cmd.list || cmd.name.isSome then .ok cmd
    else .error "required arguments were not provided"

/-! ### Concrete inputs used by witnesses and counterexamples -/

/-- A template entry whose title is a single word. -/
def eAlpha : IndexEntry :=
  { title := "Alpha", author := "ann", summary := "an alpha starter",
    tags := ["HTTP", "ai"], url := "https://example.com/alpha",
    id := "alpha", category := .Template }

/-- A second template entry matching the tag `http`. -/
def eBeta : IndexEntry :=
  { title := "Beta", author := "bob", summary := "a beta starter",
    tags := ["http"], url := "https://example.com/beta",
    id := "beta", category := .Template }

/-- An entry of a non-`Template` category with a two-word title. -/
def eGamma : IndexEntry :=
  { title := "Gamma lib", author := "gil", summary := "a gamma library",
    tags := ["http"], url := "https://example.com/gamma",
    id := "gamma", category := .NotTemplate }

/-- An environment in which every external call succeeds. -/
def envOk : Env :=
  { index := .ok [eBeta, eAlpha, eGamma], promptChoice := .ok (some 0),
    managerInit := .ok (), sourceFromGit := .ok (), install := .ok (),
    lookup := .ok (some ()), templateRun := .ok () }

/-- An environment whose index fetch fails. -/
def envIndexDown : Env := { envOk with index := .error "index fetch failed" }

/-- An environment whose template-manager initialization fails. -/
def envManagerDown : Env :=
  { envOk with managerInit := .error "manager init failed" }

/-- An entry whose title contains the fragment `ell` without having it as
a word or tag. -/
def eC1 : IndexEntry :=
  { title := "hello", author := "a", summary := "s", tags := [],
    url := "u", id := "h", category := .Template }

/-- A command searching for the fragment `ell`. -/
def cmdC1 : NewCommand := { terms := ["ell"], list := true, name := none }

/-- The bare `--list` invocation. -/
def cmdListOnly : NewCommand := { terms := [], list := true, name := none }

/-- An invocation whose single term `ai` matches exactly one template. -/
def cmdAi : NewCommand :=
  { terms := ["ai"], list := false, name := some "app" }

/-- An invocation whose term `zzz` matches nothing. -/
def cmdZzz : NewCommand :=
  { terms := ["zzz"], list := false, name := some "app" }

/-- An invocation with no search terms and a name. -/
def cmdApp : NewCommand :=
  { terms := [], list := false, name := some "app" }

/-! ### Helper lemmas about the sort by title -/

theorem charListLe_total (as bs : List Char) :
    charListLe as bs = true ∨ charListLe bs as = true := by
  induction as generalizing bs with
  | nil => left; rfl
  | cons a as ih =>
    cases bs with
    | nil => right; rfl
    | cons b bs =>
      rcases lt_trichotomy a b with h | h | h
      · left; simp [charListLe, h]
      · subst h
        rcases ih bs with h | h
        · left; simp [charListLe, lt_irrefl, h]
        · right; simp [charListLe, lt_irrefl, h]
      · right; simp [charListLe, h]

theorem charListLe_cons_of_lt {a b : Char} {as bs : List Char} (h : a < b) :
    charListLe (a :: as) (b :: bs) = true := by
  simp [charListLe, h]

theorem charListLe_cons_self {a : Char} {as bs : List Char} :
    charListLe (a :: as) (a :: bs) = charListLe as bs := by
  simp [charListLe, lt_irrefl]

theorem charListLe_cons_of_gt {a b : Char} {as bs : List Char} (h : b < a) :
    charListLe (a :: as) (b :: bs) = false := by
  simp [charListLe, h, lt_asymm h]

theorem charListLe_trans : ∀ {as bs cs : List Char},
    charListLe as bs = true → charListLe bs cs = true →
      charListLe as cs = true
  | [], _, _, _, _ => rfl
  | a :: as, [], _, h1, _ => by simp [charListLe] at h1
  | _ :: _, _ :: _, [], _, h2 => by simp [charListLe] at h2
  | a :: as, b :: bs, c :: cs, h1, h2 => by
    rcases lt_trichotomy a b with hab | rfl | hab
    · rcases lt_trichotomy b c with hbc | rfl | hbc
      · exact charListLe_cons_of_lt (lt_trans hab hbc)
      · exact charListLe_cons_of_lt hab
      · rw [charListLe_cons_of_gt hbc] at h2; cases h2
    · rcases lt_trichotomy a c with hbc | rfl | hbc
      · exact charListLe_cons_of_lt hbc
      · rw [charListLe_cons_self] at h1 h2 ⊢
        exact charListLe_trans h1 h2
      · rw [charListLe_cons_of_gt hbc] at h2; cases h2
    · rw [charListLe_cons_of_gt hab] at h1; cases h1

theorem mem_sortByTitle {e : IndexEntry} {l : List IndexEntry} :
    e ∈ sortByTitle l ↔ e ∈ l :=
  List.mem_insertionSort titleLe

theorem sortByTitle_sorted (l : List IndexEntry) :
    (sortByTitle l).Pairwise titleLe := by
  have ht : IsTotal IndexEntry titleLe := ⟨fun a b => charListLe_total _ _⟩
  have htr : IsTrans IndexEntry titleLe := ⟨fun _ _ _ => charListLe_trans⟩
  exact List.sorted_insertionSort titleLe l

/-! ### Decomposition lemmas for `run` and its callees -/

theorem run_list_branch {cmd : NewCommand} {env : Env} (hl : cmd.list = true) :
    cmd.run env = cmd.list_templates env := by
  simp [NewCommand.run, hl]

theorem run_no_name {cmd : NewCommand} {env : Env} (hl : cmd.list = false)
    (hn : cmd.name = none) :
    cmd.run env =
      ([.printLine "Please provide a name for the application you want to create."],
       .ok ()) := by
  simp [NewCommand.run, hl, hn]

theorem run_selected {cmd : NewCommand} {env : Env} {evs : List Event}
    {e : IndexEntry} (hl : cmd.list = false) (hn : cmd.name.isSome = true)
    (hres : cmd.resolve_selection env = (evs, .ok (some e))) :
    cmd.run env =
      (evs ++
        [.printLine ("Template " ++ e.title ++ " by " ++ e.author),
         .printLine e.summary] ++ (cmd.run_template e.url e.id env).1,
       (cmd.run_template e.url e.id env).2) := by
  have hn' : cmd.name.isNone = false := by
    cases h : cmd.name <;> simp_all
  simp [NewCommand.run, hl, hn', hres, get_repo_and_id]

theorem run_not_selected {cmd : NewCommand} {env : Env} {evs : List Event}
    (hl : cmd.list = false) (hn : cmd.name.isSome = true)
    (hres : cmd.resolve_selection env = (evs, .ok none)) :
    cmd.run env = (evs, .ok ()) := by
  have hn' : cmd.name.isNone = false := by
    cases h : cmd.name <;> simp_all
  simp [NewCommand.run, hl, hn', hres]

theorem run_resolve_err {cmd : NewCommand} {env : Env} {evs : List Event}
    {m : String} (hl : cmd.list = false) (hn : cmd.name.isSome = true)
    (hres : cmd.resolve_selection env = (evs, .err m)) :
    cmd.run env = (evs, .err m) := by
  have hn' : cmd.name.isNone = false := by
    cases h : cmd.name <;> simp_all
  simp [NewCommand.run, hl, hn', hres]

theorem run_resolve_crash {cmd : NewCommand} {env : Env} {evs : List Event}
    {r : CrashReason} (hl : cmd.list = false) (hn : cmd.name.isSome = true)
    (hres : cmd.resolve_selection env = (evs, .crashed r)) :
    cmd.run env = (evs, .crashed r) := by
  have hn' : cmd.name.isNone = false := by
    cases h : cmd.name <;> simp_all
  simp [NewCommand.run, hl, hn', hres]

theorem list_templates_events {cmd : NewCommand} {env : Env} :
    ∀ ev ∈ (cmd.list_templates env).1, ∃ s, ev = .printLine s := by
  intro ev hev
  unfold NewCommand.list_templates at hev
  cases hidx : env.index with
  | error m => rw [hidx] at hev; simp at hev
  | ok entries =>
    rw [hidx] at hev
    dsimp only at hev
    split at hev
    · simp at hev
      exact ⟨_, hev⟩
    · simp [listingBlock] at hev
      obtain ⟨e, _, rfl⟩ := hev
      exact ⟨_, rfl⟩

theorem resolve_selection_events {cmd : NewCommand} {env : Env} :
    ∀ ev ∈ (cmd.resolve_selection env).1,
      (∃ s, ev = .printLine s) ∨ ∃ it, ev = .promptShown it := by
  intro ev hev
  unfold NewCommand.resolve_selection at hev
  cases hidx : env.index with
  | error m => rw [hidx] at hev; simp at hev
  | ok entries =>
    rw [hidx] at hev
    dsimp only at hev
    rcases hsort : sortByTitle (entries.filter fun e => cmd.is_match e) with
      _ | ⟨a, _ | ⟨b, rest⟩⟩ <;> rw [hsort] at hev
    · simp at hev
      exact .inl ⟨_, hev⟩
    · simp at hev
    · cases hp : env.promptChoice with
      | error m =>
        rw [hp] at hev
        simp at hev
        exact .inr ⟨_, hev⟩
      | ok o =>
        rw [hp] at hev
        cases o with
        | none =>
          simp at hev
          exact .inr ⟨_, hev⟩
        | some idx =>
          simp at hev
          rcases hg : (a :: b :: rest)[idx]? with _ | e
          all_goals rw [hg] at hev
          all_goals simp at hev
          all_goals exact .inr ⟨_, hev⟩

theorem resolve_sel_inv {cmd : NewCommand} {env : Env} {e : IndexEntry}
    (h : (cmd.resolve_selection env).2 = .ok (some e)) :
    ∃ entries, env.index = .ok entries ∧ e ∈ entries ∧
      cmd.is_match e = true := by
  unfold NewCommand.resolve_selection at h
  cases hidx : env.index with
  | error m => rw [hidx] at h; simp at h
  | ok entries =>
    rw [hidx] at h
    dsimp only at h
    refine ⟨entries, rfl, ?_⟩
    have hmem : e ∈ sortByTitle (entries.filter fun x => cmd.is_match x) := by
      split at h
      · simp at h
      · simp at h
        subst h
        simp_all
      · split at h
        · simp at h
        · simp at h
        · split at h
          · simp at h
            subst h
            exact List.getElem?_mem (by assumption)
          · simp at h
    rw [mem_sortByTitle, List.mem_filter] at hmem
    exact ⟨hmem.1, hmem.2⟩

theorem run_template_events {cmd : NewCommand} {repo id : String} {env : Env} :
    ∀ ev ∈ (cmd.run_template repo id env).1,
      ev = .installFrom repo ∨
        ∃ n, cmd.name = some n ∧ ev = .templateRun id n := by
  intro ev hev
  unfold NewCommand.run_template at hev
  repeat' split at hev
  all_goals simp_all

theorem resolve_selection_events_exact {cmd : NewCommand} {env : Env} :
    ∀ ev ∈ (cmd.resolve_selection env).1,
      ev = .printLine "No templates match your search terms" ∨
        ∃ it, ev = .promptShown it := by
  intro ev hev
  unfold NewCommand.resolve_selection at hev
  cases hidx : env.index with
  | error m => rw [hidx] at hev; simp at hev
  | ok entries =>
    rw [hidx] at hev
    dsimp only at hev
    rcases hsort : sortByTitle (entries.filter fun e => cmd.is_match e) with
      _ | ⟨a, _ | ⟨b, rest⟩⟩ <;> rw [hsort] at hev
    · simp at hev
      exact .inl hev
    · simp at hev
    · cases hp : env.promptChoice with
      | error m =>
        rw [hp] at hev
        simp at hev
        exact .inr ⟨_, hev⟩
      | ok o =>
        rw [hp] at hev
        cases o with
        | none =>
          simp at hev
          exact .inr ⟨_, hev⟩
        | some idx =>
          simp at hev
          rcases hg : (a :: b :: rest)[idx]? with _ | e
          all_goals rw [hg] at hev
          all_goals simp at hev
          all_goals exact .inr ⟨_, hev⟩

theorem resolve_crash_reasons {cmd : NewCommand} {env : Env}
    {evs : List Event} {r : CrashReason}
    (h : cmd.resolve_selection env = (evs, .crashed r)) :
    r = .indexUnwrap ∨ r = .promptIndexOutOfRange := by
  unfold NewCommand.resolve_selection at h
  cases hidx : env.index with
  | error m =>
    rw [hidx] at h
    simp at h
    exact .inl h.2.symm
  | ok entries =>
    rw [hidx] at h
    dsimp only at h
    rcases hsort : sortByTitle (entries.filter fun e => cmd.is_match e) with
      _ | ⟨a, _ | ⟨b, rest⟩⟩ <;> rw [hsort] at h
    · simp at h
    · simp at h
    · cases hp : env.promptChoice with
      | error m => rw [hp] at h; simp at h
      | ok o =>
        rw [hp] at h
        cases o with
        | none => simp at h
        | some idx =>
          simp at h
          rcases hg : (a :: b :: rest)[idx]? with _ | e
          all_goals rw [hg] at h
          · simp at h
            exact .inr h.2.symm
          · simp at h

theorem run_template_name_crash {cmd : NewCommand} {repo id : String}
    {env : Env}
    (h : (cmd.run_template repo id env).2 = .crashed .nameUnwrap) :
    cmd.name = none := by
  unfold NewCommand.run_template at h
  repeat' split at h
  all_goals simp_all

theorem run_install_src {cmd : NewCommand} {env : Env} {repo : String}
    (hin : Event.installFrom repo ∈ (cmd.run env).1) :
    ∃ e, (cmd.resolve_selection env).2 = .ok (some e) ∧ repo = e.url := by
  cases hl : cmd.list with
  | true =>
    rw [run_list_branch hl] at hin
    obtain ⟨s, hs⟩ := list_templates_events _ hin
    cases hs
  | false =>
    cases hn : cmd.name with
    | none =>
      rw [run_no_name hl hn] at hin
      simp at hin
    | some nm =>
      have hns : cmd.name.isSome = true := by simp [hn]
      rcases hres : cmd.resolve_selection env with ⟨evs, res⟩
      have hevs : ∀ x ∈ evs,
          (∃ s, x = .printLine s) ∨ ∃ it, x = .promptShown it :=
        fun x hx => resolve_selection_events x (by rw [hres]; exact hx)
      match res, hres with
      | .err m, hres =>
        rw [run_resolve_err hl hns hres] at hin
        rcases hevs _ hin with ⟨s, hs⟩ | ⟨it, hs⟩ <;> cases hs
      | .crashed r, hres =>
        rw [run_resolve_crash hl hns hres] at hin
        rcases hevs _ hin with ⟨s, hs⟩ | ⟨it, hs⟩ <;> cases hs
      | .ok none, hres =>
        rw [run_not_selected hl hns hres] at hin
        rcases hevs _ hin with ⟨s, hs⟩ | ⟨it, hs⟩ <;> cases hs
      | .ok (some e), hres =>
        rw [run_selected hl hns hres] at hin
        rw [List.append_assoc, List.mem_append] at hin
        rcases hin with hin | hin
        · rcases hevs _ hin with ⟨s, hs⟩ | ⟨it, hs⟩ <;> cases hs
        · rw [List.mem_append] at hin
          rcases hin with hin | hin
          · simp at hin
          · rcases run_template_events _ hin with h | ⟨n2, hn2, h⟩
            · simp at h
              exact ⟨e, by simp [hres], h⟩
            · cases h

theorem run_templateRun_src {cmd : NewCommand} {env : Env} {id n : String}
    (hin : Event.templateRun id n ∈ (cmd.run env).1) :
    ∃ e, (cmd.resolve_selection env).2 = .ok (some e) ∧ id = e.id ∧
      cmd.name = some n := by
  cases hl : cmd.list with
  | true =>
    rw [run_list_branch hl] at hin
    obtain ⟨s, hs⟩ := list_templates_events _ hin
    cases hs
  | false =>
    cases hn : cmd.name with
    | none =>
      rw [run_no_name hl hn] at hin
      simp at hin
    | some nm =>
      have hns : cmd.name.isSome = true := by simp [hn]
      rcases hres : cmd.resolve_selection env with ⟨evs, res⟩
      have hevs : ∀ x ∈ evs,
          (∃ s, x = .printLine s) ∨ ∃ it, x = .promptShown it :=
        fun x hx => resolve_selection_events x (by rw [hres]; exact hx)
      match res, hres with
      | .err m, hres =>
        rw [run_resolve_err hl hns hres] at hin
        rcases hevs _ hin with ⟨s, hs⟩ | ⟨it, hs⟩ <;> cases hs
      | .crashed r, hres =>
        rw [run_resolve_crash hl hns hres] at hin
        rcases hevs _ hin with ⟨s, hs⟩ | ⟨it, hs⟩ <;> cases hs
      | .ok none, hres =>
        rw [run_not_selected hl hns hres] at hin
        rcases hevs _ hin with ⟨s, hs⟩ | ⟨it, hs⟩ <;> cases hs
      | .ok (some e), hres =>
        rw [run_selected hl hns hres] at hin
        rw [List.append_assoc, List.mem_append] at hin
        rcases hin with hin | hin
        · rcases hevs _ hin with ⟨s, hs⟩ | ⟨it, hs⟩ <;> cases hs
        · rw [List.mem_append] at hin
          rcases hin with hin | hin
          · simp at hin
          · rcases run_template_events _ hin with h | ⟨n2, hn2, h⟩
            · cases h
            · simp at h
              refine ⟨e, by simp [hres], h.1, ?_⟩
              simp only [h.2]
              first
              | exact hn2
              | exact hn.symm.trans hn2

theorem parseTokens_terms_accum (vs : List String) (rest : List String)
    (acc : NewCommand) :
    parseTokens ((vs.map fun v => ["-t", v]).flatten ++ rest) acc =
      parseTokens rest { acc with terms := acc.terms ++ vs } := by
  induction vs generalizing acc with
  | nil => simp
  | cons v vs ih =>
    simp only [List.map_cons, List.flatten_cons, List.cons_append,
      List.nil_append]
    rw [show parseTokens
        ("-t" :: v :: ((vs.map fun v => ["-t", v]).flatten ++ rest)) acc =
        parseTokens ((vs.map fun v => ["-t", v]).flatten ++ rest)
          { acc with terms := acc.terms ++ [v] } by
      rw [parseTokens]
      simp]
    rw [ih]
    simp [List.append_assoc]

theorem parseTokens_positional (nm : String) (hnm : isFlagToken nm = false)
    (acc : NewCommand) (hname : acc.name = none) :
    parseTokens [nm] acc = .ok { acc with name := some nm } := by
  have h1 : ¬(nm = "-t") := by
    rintro rfl
    exact absurd hnm (by decide)
  have h2 : ¬(nm = "-l" ∨ nm = "--list") := by
    rintro (rfl | rfl) <;> exact absurd hnm (by decide)
  rw [parseTokens]
  simp [h1, h2, hnm, hname, parseTokens]

/-! ### Claims -/

/-- Claim C1, counterexample: the claim reads the matcher as
case-insensitive substring matching against the title, but
`is_terms_match` only accepts a term that is a whole tag or a whole
title word: the term `ell` occurs as a substring of the title `hello`
yet the entry does not match. -/
theorem terms_match_spec_counterexample :
    specTermsMatch cmdC1 eC1 = true ∧
      NewCommand.is_terms_match cmdC1 eC1 = false := by
  decide

/-- Claim C1, amended: an entry matches the search terms if and only if
every term, lowercased, equals one of the tags of the entry
(compared lowercased) or one of the space-separated words of its
lowercased title — whole-word matching, not substring matching. -/
theorem terms_match_amended (cmd : NewCommand) (e : IndexEntry) :
    cmd.is_terms_match e = true ↔
      ∀ t ∈ cmd.terms,
        (∃ tag ∈ e.tags, strToLower tag = strToLower t) ∨
          strToLower t ∈ e.title_words := by
  simp [NewCommand.is_terms_match, IndexEntry.tagsLower, List.all_eq_true,
    List.mem_map]

/-- Claim C1, witness for the amended matcher: with no search terms the
matcher accepts. -/
theorem terms_match_amended_witness :
    NewCommand.is_terms_match cmdListOnly eAlpha = true :=
  (terms_match_amended cmdListOnly eAlpha).mpr (by simp [cmdListOnly])

/-- Claim C2, counterexample: a failed index fetch is not propagated to
the caller of `run` as an error result — `hub_api::index().await.unwrap()`
panics instead. -/
theorem error_passthrough_counterexample :
    (NewCommand.run cmdListOnly envIndexDown).2 = .crashed .indexUnwrap ∧
      ∀ m, (NewCommand.run cmdListOnly envIndexDown).2 ≠ .err m := by
  refine ⟨by decide, ?_⟩
  intro m h
  have h2 : (NewCommand.run cmdListOnly envIndexDown).2 =
      .crashed .indexUnwrap := by decide
  rw [h2] at h
  cases h

/-- Claim C2, amended: failures of the template-manager initialization,
template-source creation, template install, template run and the
interactive prompt are propagated unchanged as error results, with no
local handling, retry or recovery; failures of the index fetch and of
the template lookup are instead unwrapped and abort (panic). -/
theorem error_passthrough_amended (cmd : NewCommand) (env : Env) :
    (∀ m, env.index = .error m → cmd.list = true →
      (cmd.run env).2 = .crashed .indexUnwrap) ∧
    (∀ m, env.index = .error m → cmd.list = false → cmd.name.isSome = true →
      (cmd.run env).2 = .crashed .indexUnwrap) ∧
    (∀ repo id m, env.managerInit = .error m →
      (cmd.run_template repo id env).2 = .err m) ∧
    (∀ repo id m, env.managerInit = .ok () → env.sourceFromGit = .error m →
      (cmd.run_template repo id env).2 = .err m) ∧
    (∀ repo id m, env.managerInit = .ok () → env.sourceFromGit = .ok () →
      env.install = .error m → (cmd.run_template repo id env).2 = .err m) ∧
    (∀ repo id m, env.managerInit = .ok () → env.sourceFromGit = .ok () →
      env.install = .ok () → env.lookup = .error m →
      (cmd.run_template repo id env).2 = .crashed .lookupUnwrap) ∧
    (∀ repo id n m, env.managerInit = .ok () → env.sourceFromGit = .ok () →
      env.install = .ok () → env.lookup = .ok (some ()) → cmd.name = some n →
      env.templateRun = .error m → (cmd.run_template repo id env).2 = .err m) ∧
    (∀ entries m, env.index = .ok entries → env.promptChoice = .error m →
      2 ≤ (sortByTitle (entries.filter fun e => cmd.is_match e)).length →
      (cmd.resolve_selection env).2 = .err m) ∧
    (∀ evs m, cmd.list = false → cmd.name.isSome = true →
      cmd.resolve_selection env = (evs, .err m) → (cmd.run env).2 = .err m) ∧
    (∀ e evs, cmd.list = false → cmd.name.isSome = true →
      cmd.resolve_selection env = (evs, .ok (some e)) →
      (cmd.run env).2 = (cmd.run_template e.url e.id env).2) := by
  refine ⟨?_, ?_, ?_, ?_, ?_, ?_, ?_, ?_, ?_, ?_⟩
  · intro m him hl
    rw [run_list_branch hl]
    simp [NewCommand.list_templates, him]
  · intro m him hl hn
    have hres : cmd.resolve_selection env = ([], .crashed .indexUnwrap) := by
      simp [NewCommand.resolve_selection, him]
    rw [run_resolve_crash hl hn hres]
  · intro repo id m h1
    simp [NewCommand.run_template, h1]
  · intro repo id m h1 h2
    simp [NewCommand.run_template, h1, h2]
  · intro repo id m h1 h2 h3
    simp [NewCommand.run_template, h1, h2, h3]
  · intro repo id m h1 h2 h3 h4
    simp [NewCommand.run_template, h1, h2, h3, h4]
  · intro repo id n m h1 h2 h3 h4 h5 h6
    simp [NewCommand.run_template, h1, h2, h3, h4, h5, h6]
  · intro entries m hidx hp hlen
    obtain ⟨a, b, rest, hcase⟩ :
        ∃ a b rest, sortByTitle (entries.filter fun e => cmd.is_match e) =
          a :: b :: rest := by
      cases h1 : sortByTitle (entries.filter fun e => cmd.is_match e) with
      | nil => rw [h1] at hlen; simp at hlen
      | cons a t =>
        cases h2 : t with
        | nil => rw [h1, h2] at hlen; simp at hlen
        | cons b rest => subst h2; exact ⟨a, b, rest, rfl⟩
    simp [NewCommand.resolve_selection, hidx, hcase, hp]
  · intro evs m hl hn hres
    rw [run_resolve_err hl hn hres]
  · intro e evs hl hn hres
    rw [run_selected hl hn hres]

/-- Claim C2, witness: a failing manager initialization propagates its
error message. -/
theorem error_passthrough_amended_witness :
    (NewCommand.run_template cmdApp "r" "i" envManagerDown).2 =
      .err "manager init failed" :=
  (error_passthrough_amended cmdApp envManagerDown).2.2.1 "r" "i"
    "manager init failed" rfl

/-- Claim C3: `resolve_selection` prints the no-match message and
returns no selection when no entry matches, returns the unique matching
entry without prompting, and with two or more matches shows the prompt
over the matches sorted by title, returning the chosen entry or no
selection on cancel. -/
theorem resolve_selection_spec (cmd : NewCommand) (env : Env)
    (entries : List IndexEntry) (matched : List IndexEntry)
    (hidx : env.index = .ok entries)
    (hm : matched = sortByTitle (entries.filter fun e => cmd.is_match e)) :
    (∀ x, x ∈ matched ↔ x ∈ entries ∧ cmd.is_match x = true) ∧
    matched.Pairwise titleLe ∧
    (matched = [] → cmd.resolve_selection env =
      ([.printLine "No templates match your search terms"], .ok none)) ∧
    (∀ e, matched = [e] → cmd.resolve_selection env = ([], .ok (some e))) ∧
    (2 ≤ matched.length →
      (cmd.resolve_selection env).1 = [.promptShown (matched.map (·.title))] ∧
      (env.promptChoice = .ok none → (cmd.resolve_selection env).2 = .ok none) ∧
      (∀ idx e, env.promptChoice = .ok (some idx) → matched[idx]? = some e →
        (cmd.resolve_selection env).2 = .ok (some e))) := by
  subst hm
  refine ⟨?_, sortByTitle_sorted _, ?_, ?_, ?_⟩
  · intro x
    rw [mem_sortByTitle, List.mem_filter]
  · intro h1
    simp [NewCommand.resolve_selection, hidx, h1]
  · intro e h1
    simp [NewCommand.resolve_selection, hidx, h1]
  · intro hlen
    obtain ⟨a, b, rest, hcase⟩ :
        ∃ a b rest, sortByTitle (entries.filter fun e => cmd.is_match e) =
          a :: b :: rest := by
      cases h1 : sortByTitle (entries.filter fun e => cmd.is_match e) with
      | nil => rw [h1] at hlen; simp at hlen
      | cons a t =>
        cases h2 : t with
        | nil => rw [h1, h2] at hlen; simp at hlen
        | cons b rest => subst h2; exact ⟨a, b, rest, rfl⟩
    refine ⟨?_, ?_, ?_⟩
    · cases hp : env.promptChoice with
      | error m => simp [NewCommand.resolve_selection, hidx, hcase, hp]
      | ok o =>
        cases o with
        | none => simp [NewCommand.resolve_selection, hidx, hcase, hp]
        | some idx =>
          cases hg : (a :: b :: rest)[idx]? with
          | none => simp [NewCommand.resolve_selection, hidx, hcase, hp, hg]
          | some e => simp [NewCommand.resolve_selection, hidx, hcase, hp, hg]
    · intro hp
      simp [NewCommand.resolve_selection, hidx, hcase, hp]
    · intro idx e hp hget
      rw [hcase] at hget
      simp [NewCommand.resolve_selection, hidx, hcase, hp, hget]

/-- Claim C3, witness: a unique match is returned without prompting. -/
theorem resolve_selection_spec_witness :
    NewCommand.resolve_selection cmdAi envOk = ([], .ok (some eAlpha)) :=
  (resolve_selection_spec cmdAi envOk [eBeta, eAlpha, eGamma]
    (sortByTitle ([eBeta, eAlpha, eGamma].filter
      fun e => NewCommand.is_match cmdAi e)) rfl rfl).2.2.2.1 eAlpha (by decide)

/-- Claim C4: under the list flag the command prints one
Template/Description block for each entry matching every term, sorted by
title, prints the no-match message when nothing matches, and returns
success in both cases. -/
theorem list_templates_spec (cmd : NewCommand) (env : Env)
    (entries : List IndexEntry) (matched : List IndexEntry)
    (hidx : env.index = .ok entries) (hl : cmd.list = true)
    (hm : matched = sortByTitle (entries.filter fun e => cmd.is_terms_match e)) :
    (∀ x, x ∈ matched ↔ x ∈ entries ∧ cmd.is_terms_match x = true) ∧
    matched.Pairwise titleLe ∧
    (matched = [] → cmd.run env =
      ([.printLine "No templates match your search terms"], .ok ())) ∧
    (matched ≠ [] → cmd.run env = (matched.map listingBlock, .ok ())) := by
  subst hm
  rw [run_list_branch hl]
  refine ⟨?_, sortByTitle_sorted _, ?_, ?_⟩
  · intro x
    rw [mem_sortByTitle, List.mem_filter]
  · intro h1
    simp [NewCommand.list_templates, hidx, h1]
  · intro h1
    simp [NewCommand.list_templates, hidx, List.isEmpty_iff, h1]

/-- Claim C4, witness: listing with the term-free command prints the
blocks for the whole sorted index and succeeds. -/
theorem list_templates_spec_witness :
    NewCommand.run cmdListOnly envOk =
      ((sortByTitle ([eBeta, eAlpha, eGamma].filter
        fun e => NewCommand.is_terms_match cmdListOnly e)).map listingBlock,
       .ok ()) :=
  (list_templates_spec cmdListOnly envOk [eBeta, eAlpha, eGamma]
    (sortByTitle ([eBeta, eAlpha, eGamma].filter
      fun e => NewCommand.is_terms_match cmdListOnly e)) rfl rfl rfl).2.2.2
    (by decide)

/-- Claim C5: the installer and the template runner are only ever
invoked after the index fetch succeeded and a single matching entry was
selected; when nothing matched or the prompt was cancelled, `run`
installs nothing, runs nothing and returns success. -/
theorem installer_gating (cmd : NewCommand) (env : Env) :
    (∀ repo, Event.installFrom repo ∈ (cmd.run env).1 →
      ∃ entries e, env.index = .ok entries ∧ e ∈ entries ∧
        (cmd.resolve_selection env).2 = .ok (some e)) ∧
    (∀ id n, Event.templateRun id n ∈ (cmd.run env).1 →
      ∃ entries e, env.index = .ok entries ∧ e ∈ entries ∧
        (cmd.resolve_selection env).2 = .ok (some e)) ∧
    (∀ evs, cmd.list = false → cmd.resolve_selection env = (evs, .ok none) →
      (cmd.run env).2 = .ok () ∧
      (∀ repo, Event.installFrom repo ∉ (cmd.run env).1) ∧
      (∀ id n, Event.templateRun id n ∉ (cmd.run env).1)) := by
  have main : ∀ ev, ev ∈ (cmd.run env).1 →
      (∃ s, ev = .printLine s) ∨ (∃ it, ev = .promptShown it) ∨
      (∃ entries e, env.index = .ok entries ∧ e ∈ entries ∧
        (cmd.resolve_selection env).2 = .ok (some e)) := by
    intro ev hev
    cases hl : cmd.list with
    | true =>
      rw [run_list_branch hl] at hev
      exact .inl (list_templates_events ev hev)
    | false =>
      cases hn : cmd.name with
      | none =>
        rw [run_no_name hl hn] at hev
        simp at hev
        exact .inl ⟨_, hev⟩
      | some nm =>
        have hns : cmd.name.isSome = true := by simp [hn]
        rcases hres : cmd.resolve_selection env with ⟨evs, res⟩
        have hevs : ∀ x ∈ evs,
            (∃ s, x = .printLine s) ∨ ∃ it, x = .promptShown it := by
          intro x hx
          exact resolve_selection_events x (by rw [hres]; exact hx)
        match res, hres with
        | .err m, hres =>
          rw [run_resolve_err hl hns hres] at hev
          rcases hevs ev hev with h | h
          · exact .inl h
          · exact .inr (.inl h)
        | .crashed r, hres =>
          rw [run_resolve_crash hl hns hres] at hev
          rcases hevs ev hev with h | h
          · exact .inl h
          · exact .inr (.inl h)
        | .ok none, hres =>
          rw [run_not_selected hl hns hres] at hev
          rcases hevs ev hev with h | h
          · exact .inl h
          · exact .inr (.inl h)
        | .ok (some e), hres =>
          refine .inr (.inr ?_)
          obtain ⟨entries, hidx, hmem, _⟩ :=
            @resolve_sel_inv cmd env e (by simp [hres])
          exact ⟨entries, e, hidx, hmem, by simp [hres]⟩
  refine ⟨?_, ?_, ?_⟩
  · intro repo hin
    rcases main _ hin with ⟨s, hs⟩ | ⟨it, hs⟩ | h
    · cases hs
    · cases hs
    · exact h
  · intro id n hin
    rcases main _ hin with ⟨s, hs⟩ | ⟨it, hs⟩ | h
    · cases hs
    · cases hs
    · exact h
  · intro evs hl hres
    cases hn : cmd.name with
    | none =>
      rw [run_no_name hl hn]
      simp
    | some nm =>
      have hns : cmd.name.isSome = true := by simp [hn]
      rw [run_not_selected hl hns hres]
      have hevs : ∀ x ∈ evs,
          (∃ s, x = .printLine s) ∨ ∃ it, x = .promptShown it := by
        intro x hx
        exact resolve_selection_events x (by rw [hres]; exact hx)
      refine ⟨rfl, ?_, ?_⟩
      · intro repo hin
        rcases hevs _ hin with ⟨s, hs⟩ | ⟨it, hs⟩ <;> cases hs
      · intro id n hin
        rcases hevs _ hin with ⟨s, hs⟩ | ⟨it, hs⟩ <;> cases hs

/-- Claim C5, witness: when no entry matches, `run` still succeeds. -/
theorem installer_gating_witness :
    (NewCommand.run cmdZzz envOk).2 = .ok () :=
  ((installer_gating cmdZzz envOk).2.2
    [Event.printLine "No templates match your search terms"] rfl
    (by decide)).1

/-- Claim C6: `get_repo_and_id` never errors and returns exactly the
url and id fields of its entry; every install uses the url of the
selected entry verbatim and every template run uses its id verbatim. -/
theorem verbatim_repo_id (cmd : NewCommand) (env : Env) :
    (∀ e, get_repo_and_id e = Except.ok (e.url, e.id)) ∧
    (∀ repo, Event.installFrom repo ∈ (cmd.run env).1 →
      ∃ e, (cmd.resolve_selection env).2 = .ok (some e) ∧ repo = e.url) ∧
    (∀ id n, Event.templateRun id n ∈ (cmd.run env).1 →
      ∃ e, (cmd.resolve_selection env).2 = .ok (some e) ∧ id = e.id ∧
        cmd.name = some n) :=
  ⟨fun _ => rfl, fun _ hin => run_install_src hin,
    fun _ _ hin => run_templateRun_src hin⟩

/-- Claim C6, witness: the install recorded on a concrete run uses the
url of the selected entry. -/
theorem verbatim_repo_id_witness :
    ∃ e, (NewCommand.resolve_selection cmdAi envOk).2 = .ok (some e) ∧
      "https://example.com/alpha" = e.url :=
  (verbatim_repo_id cmdAi envOk).2.1 "https://example.com/alpha" (by decide)

/-- Claim C7 (spec-modelled parser): the command line consists of the
repeatable `-t` option whose occurrences accumulate in order into
`terms`, the `-l`/`--list` flag, one positional `name`, and the
required argument group. -/
theorem cli_surface (vs : List String) (nm : String)
    (hnm : isFlagToken nm = false) :
    (∀ acc rest, parseTokens ((vs.map fun v => ["-t", v]).flatten ++ rest) acc =
      parseTokens rest { acc with terms := acc.terms ++ vs }) ∧
    parse_args ((vs.map fun v => ["-t", v]).flatten ++ [nm]) =
      .ok { terms := vs, list := false, name := some nm } ∧
    parse_args ("--list" :: (vs.map fun v => ["-t", v]).flatten) =
      .ok { terms := vs, list := true, name := none } ∧
    parse_args [] = .error "required arguments were not provided" := by
  refine ⟨fun acc rest => parseTokens_terms_accum vs rest acc, ?_, ?_, rfl⟩
  · unfold parse_args
    rw [parseTokens_terms_accum]
    rw [show ({ terms := [], list := false, name := none : NewCommand }.terms
        ++ vs) = vs by simp]
    rw [parseTokens_positional nm hnm _ rfl]
    simp
  · unfold parse_args
    rw [show parseTokens ("--list" :: (vs.map fun v => ["-t", v]).flatten)
        { terms := [], list := false, name := none } =
        parseTokens ((vs.map fun v => ["-t", v]).flatten)
          { terms := [], list := true, name := none } by
      rw [parseTokens.eq_def]
      simp]
    rw [show ((vs.map fun v => ["-t", v]).flatten) =
        ((vs.map fun v => ["-t", v]).flatten) ++ [] by simp]
    rw [parseTokens_terms_accum]
    simp [parseTokens]

/-- Claim C7, witness: two `-t` occurrences accumulate in order and the
positional argument becomes the name. -/
theorem cli_surface_witness :
    parse_args ["-t", "api", "-t", "rust", "myapp"] =
      .ok { terms := ["api", "rust"], list := false, name := some "myapp" } :=
  (cli_surface ["api", "rust"] "myapp" (by decide)).2.1

/-- Claim C8: under the required argument group, a non-list invocation
always carries a name, so `run` cannot reach the name-missing message
and the name unwraps inside `run_template` cannot panic. -/
theorem name_presence_safety (cmd : NewCommand) (env : Env)
    (hgroup : cmd.list = true ∨ cmd.name.isSome = true)
    (hl : cmd.list = false) :
    cmd.name.isSome = true ∧
    (cmd.run env).2 ≠ .crashed .nameUnwrap ∧
    cmd.run env ≠
      ([.printLine "Please provide a name for the application you want to create."],
       .ok ()) := by
  have hns : cmd.name.isSome = true := by
    rcases hgroup with h | h
    · rw [h] at hl; cases hl
    · exact h
  obtain ⟨nm, hn⟩ := Option.isSome_iff_exists.mp hns
  refine ⟨hns, ?_, ?_⟩
  · rcases hres : cmd.resolve_selection env with ⟨evs, res⟩
    match res, hres with
    | .err m, hres => rw [run_resolve_err hl hns hres]; simp
    | .crashed r, hres =>
      rw [run_resolve_crash hl hns hres]
      intro hcon
      simp only [Res.crashed.injEq] at hcon
      rcases resolve_crash_reasons hres with h | h <;> rw [hcon] at h <;> cases h
    | .ok none, hres => rw [run_not_selected hl hns hres]; simp
    | .ok (some e), hres =>
      rw [run_selected hl hns hres]
      intro hcon
      simp only at hcon
      have := run_template_name_crash hcon
      rw [hn] at this
      cases this
  · rcases hres : cmd.resolve_selection env with ⟨evs, res⟩
    have hevs : ∀ x ∈ evs,
        x = Event.printLine "No templates match your search terms" ∨
          ∃ it, x = Event.promptShown it :=
      fun x hx => resolve_selection_events_exact x (by rw [hres]; exact hx)
    match res, hres with
    | .err m, hres =>
      rw [run_resolve_err hl hns hres]
      intro hcon
      simp at hcon
    | .crashed r, hres =>
      rw [run_resolve_crash hl hns hres]
      intro hcon
      simp at hcon
    | .ok none, hres =>
      rw [run_not_selected hl hns hres]
      intro hcon
      simp only [Prod.mk.injEq] at hcon
      have hmem : Event.printLine
          "Please provide a name for the application you want to create." ∈
            evs := by
        rw [hcon.1]
        exact List.mem_singleton_self _
      rcases hevs _ hmem with h | ⟨it, h⟩
      · simp at h
      · cases h
    | .ok (some e), hres =>
      rw [run_selected hl hns hres]
      intro hcon
      simp only [Prod.mk.injEq] at hcon
      have hlen := congrArg List.length hcon.1
      simp [List.length_append] at hlen
      omega

/-- Claim C8, witness: the concrete named invocation has a name and its
run does not crash on the name unwraps. -/
theorem name_presence_safety_witness :
    (NewCommand.name cmdApp).isSome = true :=
  (name_presence_safety cmdApp envOk (Or.inr rfl) rfl).1

/-- Claim C9: every entry that `resolve_selection` can return has
category Template, while listing filters only by terms, so the
non-Template entry appears in the listing output yet is never
selected. -/
theorem selection_category_invariant :
    (∀ (cmd : NewCommand) (env : Env) (e : IndexEntry),
      (cmd.resolve_selection env).2 = .ok (some e) →
        e.category = Category.Template) ∧
    (eGamma.category ≠ Category.Template ∧
      listingBlock eGamma ∈ (NewCommand.list_templates cmdListOnly envOk).1 ∧
      ∀ env e, (NewCommand.resolve_selection cmdListOnly env).2 = .ok (some e) →
        e ≠ eGamma) := by
  have part1 : ∀ (cmd : NewCommand) (env : Env) (e : IndexEntry),
      (cmd.resolve_selection env).2 = .ok (some e) →
        e.category = Category.Template := by
    intro cmd env e h
    obtain ⟨entries, _, _, hmatch⟩ := resolve_sel_inv h
    unfold NewCommand.is_match NewCommand.is_category_match at hmatch
    simp at hmatch
    exact hmatch.2
  have part2 : eGamma.category ≠ Category.Template := by decide
  have part3 : listingBlock eGamma ∈
      (NewCommand.list_templates cmdListOnly envOk).1 := by decide
  have part4 : ∀ env e,
      (NewCommand.resolve_selection cmdListOnly env).2 = .ok (some e) →
        e ≠ eGamma := by
    intro env e h he
    have hcat := part1 _ _ _ h
    rw [he] at hcat
    exact absurd hcat (by decide)
  exact ⟨part1, part2, part3, part4⟩

/-- Claim C9, witness: the concretely selected entry indeed has category
Template. -/
theorem selection_category_invariant_witness :
    IndexEntry.category eAlpha = Category.Template :=
  (selection_category_invariant).1 cmdAi envOk eAlpha (by decide)

/-- Claim C10: with no search terms every entry matches the term
predicate, listing prints the whole fetched index sorted by title, and
selection matching reduces to the category test alone. -/
theorem empty_terms_spec (cmd : NewCommand) (env : Env)
    (entries : List IndexEntry) (hterms : cmd.terms = []) :
    (∀ e, cmd.is_terms_match e = true) ∧
    (∀ e, cmd.is_match e = cmd.is_category_match e) ∧
    (cmd.list = true → env.index = .ok entries → entries ≠ [] →
      cmd.run env = ((sortByTitle entries).map listingBlock, .ok ())) := by
  have h1 : ∀ e, cmd.is_terms_match e = true := by
    intro e
    simp [NewCommand.is_terms_match, hterms]
  refine ⟨h1, ?_, ?_⟩
  · intro e
    simp [NewCommand.is_match, h1 e]
  · intro hl hidx hne
    rw [run_list_branch hl]
    have hfil : entries.filter (fun e => cmd.is_terms_match e) = entries :=
      List.filter_eq_self.mpr (fun a _ => h1 a)
    have hnonempty : (sortByTitle entries).isEmpty = false := by
      cases hs : sortByTitle entries with
      | nil =>
        have hperm : sortByTitle entries = [] → entries = [] := by
          intro hx
          have hp := List.perm_insertionSort titleLe entries
          rw [show List.insertionSort titleLe entries = sortByTitle entries
            from rfl, hx] at hp
          exact hp.symm.eq_nil
        exact absurd (hperm hs) hne
      | cons a t => rfl
    simp [NewCommand.list_templates, hidx, hfil, hnonempty]

/-- Claim C10, witness: listing with no terms prints the whole sorted
index. -/
theorem empty_terms_spec_witness :
    NewCommand.run cmdListOnly envOk =
      ((sortByTitle [eBeta, eAlpha, eGamma]).map listingBlock, .ok ()) :=
  (empty_terms_spec cmdListOnly envOk [eBeta, eAlpha, eGamma] rfl).2.2
    rfl rfl (by decide)

end SpinHub
